import Mathlib

set_option autoImplicit false

/-! Definitions. -/

/-- String constants used by the model (property keys, event types, …). -/
def kLength : String := "length"

def kUpload : String := "upload"

def kDownload : String := "download"

def kCallbackId : String := "callbackId"

def kFormData : String := "formData"

def kSuccess : String := "success"

def kMethod : String := "method"

def kCallback : String := "callback"

def kSupportsArgs : String := "supports_args"

def kSupportsProgress : String := "supports_progress"

def kPath : String := "path"

def kError : String := "error"

def kErr : String := "err"

def kNameKey : String := "name"

def kTypeKey : String := "type"

def kMessage : String := "message"

def kStatusCode : String := "statusCode"

def kHeadersField : String := "_headers"

def kData : String := "data"

def kBody : String := "body"

def kResponse : String := "response"

def kLoad : String := "load"

def kAbort : String := "abort"

def kErrorEvt : String := "error"

def kProgress : String := "progress"

def kGET : String := "GET"

def kErrorSuffix : String := "Error"

def kDefaultErrorName : String := "Error"

def kFileContents : String := "fileContents"

def kFileName : String := "fileName"

def kMimeType : String := "mimeType"

def kLoaded : String := "loaded"

def kTotal : String := "total"

def kTypeError : String := "TypeError"

def kUndefinedStr : String := "undefined"

def kNullStr : String := "null"

def kTrueStr : String := "true"

def kFalseStr : String := "false"

def kObjObject : String := "[object Object]"

def kObjFile : String := "[object File]"

def kObjArrayBuffer : String := "[object ArrayBuffer]"

def kObjXHR : String := "[object XMLHttpRequest]"

def kComma : String := ","

def kColon : String := ":"

def kLBracket : String := "["

def kRBracket : String := "]"

def kLBrace : String := "\x7b"

def kRBrace : String := "\x7d"

def kEmptyObj : String := "\x7b\x7d"

def kQuote : String := "\""

/-- WordPress.com REST API base endpoint (src/index.js line 11). -/
def proxyOrigin : String := "https://public-api.wordpress.com"

mutual

/-- A JavaScript value, as needed by src/index.js: primitives, arrays, plain
objects (insertion-ordered property lists), DOM `File`s, `ArrayBuffer`s and
references to the dummy `XMLHttpRequest` handles (by index into `St.xhrs`). -/
inductive JVal : Type where
  | undef : JVal
  | null : JVal
  | bool (b : Bool) : JVal
  | num (n : Int) : JVal
  | str (s : String) : JVal
  | arr (es : JElems) : JVal
  | obj (fields : JFields) : JVal
  | file (name : String) (mime : String) (contents : List Nat) : JVal
  | buf (contents : List Nat) : JVal
  | xhrRef (i : Nat) : JVal
  deriving DecidableEq

/-- Elements of a JavaScript array. -/
inductive JElems : Type where
  | nil : JElems
  | cons (v : JVal) (rest : JElems) : JElems
  deriving DecidableEq

/-- Own enumerable properties of a JavaScript object, in insertion order. -/
inductive JFields : Type where
  | nil : JFields
  | cons (k : String) (v : JVal) (rest : JFields) : JFields
  deriving DecidableEq

end

/-- Build array elements from a Lean list (notation helper for examples). -/
def je : List JVal → JElems
  | [] => .nil
  | v :: rest => .cons v (je rest)

/-- Build object fields from a Lean list (notation helper for examples). -/
def jf : List (String × JVal) → JFields
  | [] => .nil
  | (k, v) :: rest => .cons k v (jf rest)

/-- JavaScript truthiness (`NaN` does not arise in this model). -/
def truthy : JVal → Bool
  | .undef => false
  | .null => false
  | .bool b => b
  | .num n => decide (n ≠ 0)
  | .str s => decide (s ≠ "")
  | _ => true

/-- Number of array elements. -/
def jlen : JElems → Nat
  | .nil => 0
  | .cons _ rest => jlen rest + 1

/-- Array indexing. -/
def jelemsGet? : JElems → Nat → Option JVal
  | .nil, _ => none
  | .cons v _, 0 => some v
  | .cons _ rest, n + 1 => jelemsGet? rest n

/-- In-place array element assignment `a[i] = v` (indices past the end are
not reached by the source's uses, so they leave the array unchanged). -/
def jelemsSet : JElems → Nat → JVal → JElems
  | .nil, _, _ => .nil
  | .cons _ rest, 0, w => .cons w rest
  | .cons v rest, n + 1, w => .cons v (jelemsSet rest n w)

/-- Last array element (`undefined` for an empty array). -/
def jlast : JElems → JVal
  | .nil => .undef
  | .cons v .nil => v
  | .cons _ (.cons w rest) => jlast (.cons w rest)

/-- Property read on an object's field list; `undefined` when absent. -/
def jget : JFields → String → JVal
  | .nil, _ => .undef
  | .cons k v rest, k0 => if k = k0 then v else jget rest k0

/-- Whether a field list has a key. -/
def jhas : JFields → String → Bool
  | .nil, _ => false
  | .cons k _ rest, k0 => if k = k0 then true else jhas rest k0

/-- Property write on a field list: overwrite in place, else append (this is
JavaScript's property insertion order). -/
def jset : JFields → String → JVal → JFields
  | .nil, k0, w => .cons k0 w .nil
  | .cons k v rest, k0, w =>
      if k = k0 then .cons k w rest else .cons k v (jset rest k0 w)

/-- The keys of a field list, in order. -/
def jfKeys : JFields → List String
  | .nil => []
  | .cons k _ rest => k :: jfKeys rest

/-- `for (i in src) dst[i] = src[i]` — the dynamic field copy of
src/index.js lines 343-345. -/
def copyFields : JFields → JFields → JFields
  | dst, .nil => dst
  | dst, .cons k v rest => copyFields (jset dst k v) rest

/-- Named property read `v.k` for non-nullish `v` (reads on `null`/`undefined`
throw and are handled at each use site).  Primitives answer their wrapper
properties (`length` on strings); arrays answer `length`; everything else the
source reads is on plain objects. -/
def getProp (v : JVal) (k : String) : JVal :=
  match v with
  | .obj fs => jget fs k
  | .arr es => if k = kLength then .num (jlen es) else .undef
  | .str s => if k = kLength then .num s.length else .undef
  | .file nm mt _ =>
      if k = kNameKey then .str nm else if k = kTypeKey then .str mt else .undef
  | _ => JVal.undef

/-- Property write `v.k = w`: sticks on plain objects, and is a silent no-op
on primitives (sloppy-mode semantics, matching the pre-ES5 browsers that the
`postStrings` probe targets) and on the other carriers, none of which the
source writes named properties to. -/
def jsetProp (v : JVal) (k : String) (w : JVal) : JVal :=
  match v with
  | .obj fs => .obj (jset fs k w)
  | other => other

/-- Integer coercion for values the source indexes with (`data.length`). -/
def jsToInt : JVal → Int
  | .num n => n
  | .bool b => cond b 1 0
  | .null => 0
  | .str s => (s.toInt?).getD 0
  | _ => 0

/-- Indexed read `v[i]` with an integer index (array element, character of a
string, or the decimal-keyed property of a plain object). -/
def getIdxI (v : JVal) (i : Int) : JVal :=
  match v with
  | .arr es => if 0 ≤ i then (jelemsGet? es i.toNat).getD .undef else .undef
  | .obj fs => jget fs (toString i)
  | .str s =>
      if 0 ≤ i && decide (i.toNat < s.length) then
        .str (String.singleton (s.toList.getD i.toNat ' '))
      else .undef
  | _ => JVal.undef

/-- `Array.prototype.toString` of the elements (used by `ToPropertyKey`):
elements joined by commas, `null`/`undefined` elements become empty. -/
def jkeyElems : JElems → String
  | .nil => ""
  | .cons v rest =>
      let hd :=
        match v with
        | .undef => ""
        | .null => ""
        | .bool b => cond b kTrueStr kFalseStr
        | .num n => toString n
        | .str s => s
        | .arr es2 => jkeyElems es2
        | .obj _ => kObjObject
        | .file _ _ _ => kObjFile
        | .buf _ => kObjArrayBuffer
        | .xhrRef _ => kObjXHR
      match rest with
      | .nil => hd
      | .cons w rest2 => hd ++ kComma ++ jkeyElems (.cons w rest2)

/-- JavaScript `ToPropertyKey`/`String(v)`: the string a value turns into when
used as an object key (`id in requests`, `requests[data.callbackId]`). -/
def jkey : JVal → String
  | .undef => kUndefinedStr
  | .null => kNullStr
  | .bool b => cond b kTrueStr kFalseStr
  | .num n => toString n
  | .str s => s
  | .arr es => jkeyElems es
  | .obj _ => kObjObject
  | .file _ _ _ => kObjFile
  | .buf _ => kObjArrayBuffer
  | .xhrRef _ => kObjXHR

/-- Own enumerable keys with their values, as `for (i in v)` visits them:
object fields in insertion order, array/string indices, nothing otherwise. -/
def ownEnumProps (v : JVal) : JFields :=
  match v with
  | .obj fs => fs
  | .arr es => ownEnumElems es 0
  | .str s => ownEnumChars s.toList 0
  | _ => .nil
where
  /-- Index keys of an array. -/
  ownEnumElems : JElems → Nat → JFields
    | .nil, _ => .nil
    | .cons v rest, i => .cons (toString i) v (ownEnumElems rest (i + 1))
  /-- Index keys of a string. -/
  ownEnumChars : List Char → Nat → JFields
    | [], _ => .nil
    | c :: rest, i => .cons (toString i) (.str (String.singleton c)) (ownEnumChars rest (i + 1))

/-- `Object.prototype.toString.call(v) === '[object File]'`
(src/index.js `isFile`). -/
def isFile : JVal → Bool
  | .file _ _ _ => true
  | _ => false

/-- Whether an array of form-data pairs has a `File` in value position. -/
def elemsHaveFile : JElems → Bool
  | .nil => false
  | .cons entry rest => isFile (getIdxI entry 1) || elemsHaveFile rest

/-- src/index.js `hasFile`: `params.formData` is truthy, non-empty, and some
`formData[i][1]` is a `File`.  (The source only ever passes an array here;
`elemsHaveFile` over an empty array is `false`, which also covers the
`formData.length > 0` guard.) -/
def hasFile (params : JVal) : Bool :=
  match getProp params kFormData with
  | .arr es => elemsHaveFile es
  | _ => false

/-- The character scan of `str.replace(/((^|_)[a-z])/g, m => m.toUpperCase()
.replace('_',''))`: a lowercase letter at the start, or one right after an
underscore, is uppercased and the underscore dropped. -/
def toTitleChars : List Char → Bool → List Char
  | [], _ => []
  | [c], atStart => if atStart && c.isLower then [c.toUpper] else [c]
  | c :: c2 :: rest, atStart =>
      if c = '_' then
        if c2.isLower then c2.toUpper :: toTitleChars rest false
        else c :: toTitleChars (c2 :: rest) false
      else if atStart && c.isLower then c.toUpper :: toTitleChars (c2 :: rest) false
      else c :: toTitleChars (c2 :: rest) false

/-- src/index.js `toTitle`: empty for falsy or non-string input, otherwise the
title-cased string. -/
def toTitle : JVal → String
  | .str s => if s = "" then "" else String.mk (toTitleChars s.toList true)
  | _ => ""

/-- Escape of one character inside a JSON string literal (the characters that
occur in this model's payloads). -/
def jsonEscapeChar (c : Char) : String :=
  if c = '"' then "\\\""
  else if c = '\\' then "\\\\"
  else if c = '\n' then "\\n"
  else if c = '\t' then "\\t"
  else if c = '\r' then "\\r"
  else String.singleton c

/-- A JSON string literal. -/
def jsonQuote (s : String) : String :=
  kQuote ++ String.join (s.toList.map jsonEscapeChar) ++ kQuote

mutual

/-- `JSON.stringify` over the value model.  `File`s, `ArrayBuffer`s and XHRs
have no own enumerable serialisable fields and stringify to an empty object;
`undefined` only arises inside arrays, where JSON emits `null` (the source
never stringifies a top-level non-object). -/
def jsonStringify : JVal → String
  | .undef => kNullStr
  | .null => kNullStr
  | .bool b => cond b kTrueStr kFalseStr
  | .num n => toString n
  | .str s => jsonQuote s
  | .arr es => kLBracket ++ jsonElems es ++ kRBracket
  | .obj fs => kLBrace ++ String.intercalate kComma (jsonFields fs) ++ kRBrace
  | .file _ _ _ => kEmptyObj
  | .buf _ => kEmptyObj
  | .xhrRef _ => kEmptyObj

/-- Array elements, comma separated. -/
def jsonElems : JElems → String
  | .nil => ""
  | .cons v .nil => jsonStringify v
  | .cons v (.cons w rest) => jsonStringify v ++ kComma ++ jsonElems (.cons w rest)

/-- Serialised `key:value` pieces; `undefined`-valued keys are omitted. -/
def jsonFields : JFields → List String
  | .nil => []
  | .cons _ .undef rest => jsonFields rest
  | .cons k v rest => (jsonQuote k ++ kColon ++ jsonStringify v) :: jsonFields rest

end

/-- The loose comparison `null == statusCode`, true exactly for `null` and
`undefined`. -/
def looseNull : JVal → Bool
  | .null => true
  | .undef => true
  | _ => false

/-- `2 === Math.floor( statusCode / 100 )`.  `Math.floor` of real division is
floor division `Int.fdiv`; `ToNumber` is modelled for numbers, booleans and
integer-shaped strings, and any value whose coercion is `NaN` (or a fraction
below 200) compares unequal to 2, i.e. lands on the failure branch. -/
def floorDiv100Eq2 : JVal → Bool
  | .num n => decide (Int.fdiv n 100 = 2)
  | .str s =>
      match s.toInt? with
      | some n => decide (Int.fdiv n 100 = 2)
      | none => false
  | _ => false

/-- `if ( body && headers ) body._headers = headers` (src/index.js 332-334). -/
def attachHeaders (body headers : JVal) : JVal :=
  if truthy body && truthy headers then jsetProp body kHeadersField headers
  else body

/-- An event dispatched on an XHR handle (or its upload target): the
`progress-event` instances of the source, with their expando payload. -/
structure Evt where
  type : String
  props : List (String × JVal)
  deriving DecidableEq

/-- First-match read of an event's expando property. -/
def propsGet : List (String × JVal) → String → JVal
  | [], _ => .undef
  | (k, v) :: rest, k0 => if k = k0 then v else propsGet rest k0

/-- The event as a JavaScript value (for `fn( err.error || err.err || err )`
when both expandos are absent). -/
def evtToJVal (e : Evt) : JVal :=
  .obj (jf ((kTypeKey, .str e.type) :: e.props))

/-- One dummy `XMLHttpRequest` handle: its `params` expando, the events
dispatched on it and on its `upload` target, and — when the entry point was
given a result callback `fn` — the `called` once-flag of the `_onLoad` /
`onError` wrappers (src/index.js 428-448) together with the arguments of the
`fn` invocations they made. -/
structure Xhr where
  params : JVal
  events : List Evt
  uploadEvents : List Evt
  hasCb : Bool
  called : Bool
  cbCalls : List (JVal × JVal)
  deriving DecidableEq

/-- A fresh handle as `request` builds it. -/
def mkXhr (params : JVal) (hasCb : Bool) : Xhr :=
  { params := params, events := [], uploadEvents := [], hasCb := hasCb,
    called := false, cbCalls := [] }

/-- `xhr.dispatchEvent(e)`: the event is recorded on the handle, and the
listeners that `request` bound run — `_onLoad` on `load`, `onError` on
`abort` and `error` — each firing the user callback at most once thanks to
the shared `called` flag.  `_onLoad` passes `(null, err.response ||
xhr.response)` where the fresh handle's own `response` is the empty string;
`onError` passes `err.error || err.err || err`. -/
def dispatchOn (x : Xhr) (e : Evt) : Xhr :=
  let x1 := { x with events := x.events ++ [e] }
  if x1.hasCb then
    if e.type = kLoad then
      if x1.called then x1
      else
        let resp := propsGet e.props kResponse
        let arg2 := if truthy resp then resp else .str ""
        { x1 with called := true, cbCalls := x1.cbCalls ++ [(.null, arg2)] }
    else if e.type = kAbort || e.type = kErrorEvt then
      if x1.called then x1
      else
        let er := propsGet e.props kError
        let arg :=
          if truthy er then er
          else
            let er2 := propsGet e.props kErr
            if truthy er2 then er2 else evtToJVal e
        { x1 with called := true, cbCalls := x1.cbCalls ++ [(arg, .undef)] }
    else x1
  else x1

/-- `xhr.upload.dispatchEvent(e)`: nothing is bound on the upload target, so
the event is only recorded. -/
def dispatchUpload (x : Xhr) (e : Evt) : Xhr :=
  { x with uploadEvents := x.uploadEvents ++ [e] }

/-- Update the `i`-th handle. -/
def updAt : List Xhr → Nat → (Xhr → Xhr) → List Xhr
  | [], _, _ => []
  | x :: xs, 0, f => f x :: xs
  | x :: xs, n + 1, f => x :: updAt xs n f

/-- One in-flight `postAsArrayBuffer` call: the (mutated-in-place) params and
the `count` / `called` latch of its `onLoad` closure. -/
structure Pab where
  params : JVal
  count : Int
  called : Bool
  deriving DecidableEq

/-- Update the `i`-th fallback session. -/
def updPabAt : List Pab → Nat → (Pab → Pab) → List Pab
  | [], _, _ => []
  | p :: ps, 0, f => f p :: ps
  | p :: ps, n + 1, f => p :: updPabAt ps n f

/-- The registry `requests`: callback token to handle index. -/
def reqLookup : List (String × Nat) → String → Option Nat
  | [], _ => none
  | (k, v) :: rest, k0 => if k = k0 then some v else reqLookup rest k0

/-- `requests[id] = xhr`. -/
def reqSet : List (String × Nat) → String → Nat → List (String × Nat)
  | [], k0, i => [(k0, i)]
  | (k, v) :: rest, k0, i =>
      if k = k0 then (k0, i) :: rest else (k, v) :: reqSet rest k0 i

/-- `delete requests[id]`. -/
def reqDelete : List (String × Nat) → String → List (String × Nat)
  | [], _ => []
  | (k, v) :: rest, k0 =>
      if k = k0 then reqDelete rest k0 else (k, v) :: reqDelete rest k0

/-- The module-level mutable state of src/index.js, plus the trace of
payloads handed to `iframe.contentWindow.postMessage` (`posted`) and, as a
specification-only observation, the parameter sets passed to `submitRequest`
in order (`submitLog`). -/
structure St where
  installed : Bool
  loaded : Bool
  buffered : Option (List JVal)
  hasFileSerializationBug : Bool
  requests : List (String × Nat)
  xhrs : List Xhr
  pabs : List Pab
  posted : List JVal
  submitLog : List JVal
  deriving DecidableEq

/-- The environment: the `postStrings` probe result, progress support,
`JSON.parse` behaviour, and whether / with what the channel's `postMessage`
throws on a given payload. -/
structure Env where
  postStrings : Bool
  supportsProgress : Bool
  parse : String → Except String JVal
  postThrows : JVal → Bool
  postErr : String

/-- src/index.js `resolve`: emit a `load` event carrying the body as `data`,
`body` and `response` on the dispatch target; a non-XHR target has no
`dispatchEvent` and raises a `TypeError`. -/
def resolve (st : St) (xhr : JVal) (body : JVal) : St × Option String :=
  match xhr with
  | .xhrRef i =>
      let e : Evt := ⟨kLoad, [(kData, body), (kBody, body), (kResponse, body)]⟩
      ({ st with xhrs := updAt st.xhrs i (fun x => dispatchOn x e) }, none)
  | _ => (st, some kTypeError)

/-- src/index.js `reject`: emit an `error` event carrying the error as
`error` and `err` on the dispatch target; a non-XHR target has no
`dispatchEvent` and raises a `TypeError`. -/
def reject (st : St) (xhr : JVal) (err : JVal) : St × Option String :=
  match xhr with
  | .xhrRef i =>
      let e : Evt := ⟨kErrorEvt, [(kError, err), (kErr, err)]⟩
      ({ st with xhrs := updAt st.xhrs i (fun x => dispatchOn x e) }, none)
  | _ => (st, some kTypeError)

/-- The `progress` event `onprogress` builds from the proxied data. -/
def progressEvt (data : JVal) : Evt :=
  ⟨kProgress, [(kLoaded, getProp data kLoaded), (kTotal, getProp data kTotal)]⟩

/-- src/index.js `onprogress`: look the handle up under `data.callbackId`; if
present, dispatch a progress event on `xhr.upload` when `data.upload` is
truthy and on the handle itself otherwise; unknown ids do nothing.  The
registry is not modified. -/
def onprogress (st : St) (data : JVal) : St :=
  match reqLookup st.requests (jkey (getProp data kCallbackId)) with
  | none => st
  | some i =>
      if truthy (getProp data kUpload) then
        { st with xhrs := updAt st.xhrs i (fun x => dispatchUpload x (progressEvt data)) }
      else
        { st with xhrs := updAt st.xhrs i (fun x => dispatchOn x (progressEvt data)) }

/-- The decode step of `onmessage`:
`if ( postStrings && 'string' === typeof data ) data = JSON.parse( data )`
(`JSON.parse` may throw; it is the environment's `parse`). -/
def decodeData (env : Env) (data : JVal) : Except String JVal :=
  if env.postStrings then
    match data with
    | .str s => env.parse s
    | d => .ok d
  else .ok data

/-- Handling of a reply whose token was found in the registry (src/index.js
321-352): remove the registry entry first, read `[body, statusCode,
headers]` from the first three positions, attach the headers to the body
when both are present, and classify: absent (`null == statusCode`) or
floor-hundred 2 goes to `resolve`, anything else builds the error object —
`statusCode` stamped first, then every enumerable field of the body copied
over it, then the derived name when `body.error` is truthy — and goes to
`reject`.  Reading `.error` off a nullish failure body raises a `TypeError`
(after the registry removal, which is kept). -/
def afterLookup (st : St) (tok : String) (ix : Nat) (body0 statusCode headers : JVal) :
    St × Option String :=
  let st1 := { st with requests := reqDelete st.requests tok }
  let body := attachHeaders body0 headers
  if looseNull statusCode || floorDiv100Eq2 statusCode then
    resolve st1 (.xhrRef ix) body
  else
    let errFields := copyFields (.cons kStatusCode statusCode .nil) (ownEnumProps body)
    match body with
    | .null => (st1, some kTypeError)
    | .undef => (st1, some kTypeError)
    | _ =>
      let errFields2 :=
        if truthy (getProp body kError) then
          jset errFields kNameKey (.str (toTitle (getProp body kError) ++ kErrorSuffix))
        else errFields
      reject st1 (.xhrRef ix) (.obj errFields2)

/-- src/index.js `onmessage`, the inbound dispatcher: origin check, falsy-data
bail, decode, progress classification (`data.upload || data.download`),
length check, correlation on `data[data.length - 1]` with unknown tokens
ignored, then `afterLookup`.  Property reads on a nullish decoded value
raise a `TypeError`. -/
def onmessage (env : Env) (st : St) (msgOrigin : String) (data0 : JVal) : St × Option String :=
  if msgOrigin ≠ proxyOrigin then (st, none)
  else if ¬ truthy data0 then (st, none)
  else
    match decodeData env data0 with
    | .error e => (st, some e)
    | .ok data =>
      match data with
      | .null => (st, some kTypeError)
      | .undef => (st, some kTypeError)
      | _ =>
        if truthy (getProp data kUpload) || truthy (getProp data kDownload) then
          (onprogress st data, none)
        else if ¬ truthy (getProp data kLength) then (st, none)
        else
          let id := getIdxI data (jsToInt (getProp data kLength) - 1)
          match reqLookup st.requests (jkey id) with
          | none => (st, none)
          | some ix =>
              afterLookup st (jkey id) ix (getIdxI data 0) (getIdxI data 1) (getIdxI data 2)

/-- The payload of the direct path (src/index.js 229-230): the comma-operator
statement first reassigns `params` to its JSON serialisation when the channel
only transports strings, and only then stamps `params.success = true` on the
reassigned value — a silent no-op on a string — so the stamp is lost exactly
when the payload was serialised. -/
def directPayload (env : Env) (p : JVal) : JVal :=
  jsetProp (if env.postStrings then .str (jsonStringify p) else p) kSuccess (.bool true)

/-- `iframe.contentWindow.postMessage( payload, proxyOrigin )`. -/
def doPost (env : Env) (st : St) (payload : JVal) : St × Option String :=
  if env.postThrows payload then (st, some env.postErr)
  else ({ st with posted := st.posted ++ [payload] }, none)

/-- Number of `File`s in value position of the form-data pairs. -/
def countFiles : JElems → Nat
  | .nil => 0
  | .cons entry rest => (if isFile (getIdxI entry 1) then 1 else 0) + countFiles rest

/-- src/index.js `postAsArrayBuffer`, synchronous part: destructure
`formData`, start one asynchronous read per `File` entry (counted in
`count`), and post at once if there were none (unreachable from the
`hasFile`-guarded call sites).  The read completions arrive via `pabStep`. -/
def postAsArrayBuffer (env : Env) (st : St) (params : JVal) : St × Option String :=
  match getProp params kFormData with
  | .arr es =>
      let n := countFiles es
      if n = 0 then doPost env st params
      else ({ st with pabs := st.pabs ++ [⟨params, (n : Int), false⟩] }, none)
  | _ => (st, some kTypeError)

/-- The `onLoad` closure inside `postAsArrayBuffer` (src/index.js 186-201),
acting on session `sid`: the `called` latch first; then the error branch,
which marks the latch and calls the module-level `reject` with a single
argument — so the error value itself stands where the xhr belongs (no xhr is
in scope in `postAsArrayBuffer` at all) and the dispatch on it raises a
`TypeError`; or the success branch, which substitutes the read result into
`formData[i][1]` in place, decrements `count`, and posts the substituted
params when the count reaches zero. -/
def pabOnLoad (env : Env) (st : St) (sid : Nat) (err : JVal) (fileObj : JVal) (i : Nat) :
    St × Option String :=
  match st.pabs.get? sid with
  | none => (st, none)
  | some pab =>
      if pab.called then (st, none)
      else if truthy err then
        let st1 := { st with pabs := updPabAt st.pabs sid (fun p => { p with called := true }) }
        reject st1 err .undef
      else
        match getProp pab.params kFormData with
        | .arr es =>
            match (jelemsGet? es i).getD .undef with
            | .undef => (st, some kTypeError)
            | .null => (st, some kTypeError)
            | entry =>
                let entry2 :=
                  match entry with
                  | .arr pair => JVal.arr (jelemsSet pair 1 fileObj)
                  | e => e
                let params2 := jsetProp pab.params kFormData (.arr (jelemsSet es i entry2))
                let cnt := pab.count - 1
                let st2 := { st with pabs := updPabAt st.pabs sid (fun _ => ⟨params2, cnt, false⟩) }
                if cnt = 0 then doPost env st2 params2 else (st2, none)
        | _ => (st, some kTypeError)

/-- An asynchronous file-read completion for session `sid`, form-data slot
`i`. -/
inductive ReadEv where
  | fileDone (sid : Nat) (i : Nat)
  | fileFail (sid : Nat) (i : Nat)
  deriving DecidableEq

/-- Delivery of a read completion.  `fileToArrayBuffer` (src/index.js
111-129) assigns its success handler to `reader.onload` and its failure
handler to the property named `onError`; the file API invokes `onload` on
success and `onerror` — which the source never assigns — on failure, so a
failed read invokes no handler at all and the state is left exactly as it
was.  A successful read of the `File` in slot `i` builds the
fileContents/fileName/mimeType object and runs the session's `onLoad` with a
null error. -/
def pabStep (env : Env) (st : St) (ev : ReadEv) : St × Option String :=
  match ev with
  | .fileFail _ _ => (st, none)
  | .fileDone sid i =>
      match st.pabs.get? sid with
      | none => (st, none)
      | some pab =>
          match getProp pab.params kFormData with
          | .arr es =>
              match getIdxI ((jelemsGet? es i).getD .undef) 1 with
              | .file nm mt bytes =>
                  let fileObj : JVal :=
                    .obj (jf [(kFileContents, .buf bytes), (kFileName, .str nm), (kMimeType, .str mt)])
                  pabOnLoad env st sid .null fileObj i
              | _ => (st, none)
          | _ => (st, none)

/-- src/index.js `submitRequest`: known-buggy browsers with a `File` go
straight to the fallback; otherwise the direct path — build the
`directPayload` and post it — and on a synchronous throw either cache the
defect and fall back (a `File` is present in the posted value) or rethrow. -/
def submitRequest (env : Env) (st0 : St) (params : JVal) : St × Option String :=
  let st := { st0 with submitLog := st0.submitLog ++ [params] }
  if st.hasFileSerializationBug && hasFile params then
    postAsArrayBuffer env st params
  else
    let params2 := directPayload env params
    if env.postThrows params2 then
      if hasFile params2 then
        postAsArrayBuffer env { st with hasFileSerializationBug := true } params2
      else (st, some env.postErr)
    else ({ st with posted := st.posted ++ [params2] }, none)

/-- The flush loop over the buffered calls (the `for` inside `onload`); an
exception from a submission propagates and aborts the loop. -/
def flushLoop (env : Env) : St → List JVal → St × Option String
  | st, [] => (st, none)
  | st, p :: ps =>
      match submitRequest env st p with
      | (st1, none) => flushLoop env st1 ps
      | r => r

/-- src/index.js `onload`: mark the channel ready, and if a buffer exists,
submit its entries in order and null it (the nulling is skipped when a
submission throws, since the exception propagates out of the loop). -/
def onload (env : Env) (st0 : St) : St × Option String :=
  let st := { st0 with loaded := true }
  match st.buffered with
  | none => (st, none)
  | some l =>
      match flushLoop env st l with
      | (st1, none) => ({ st1 with buffered := none }, none)
      | r => r

/-- src/index.js `install`: inject the hidden iframe, bind the `message` and
`load` listeners, and create the empty buffer. -/
def install (st : St) : St :=
  { st with installed := true, buffered := some [] }

/-- `if ( 'string' === typeof params ) params = ... ` — the path-string
sugar at the top of `request`. -/
def strSugar : JVal → JVal
  | .str s => .obj (.cons kPath (.str s) .nil)
  | p => p

/-- `toUpperCase()` over the characters (the source only upper-cases ASCII
method names). -/
def toUpperStr (s : String) : String := String.mk (s.toList.map Char.toUpper)

/-- Parameter preparation of `request` (src/index.js 412-418): stamp the
callback token and the capability flags, then force-uppercase the method:
`String( params.method || 'GET' ).toUpperCase()`. -/
def normalizeParams (sp : Bool) (p : JVal) (id : String) : JVal :=
  let p1 := jsetProp p kCallback (.str id)
  let p2 := jsetProp p1 kSupportsArgs (.bool true)
  let p3 := jsetProp p2 kSupportsProgress (.bool sp)
  let mv := getProp p3 kMethod
  jsetProp p3 kMethod (.str (toUpperStr (if truthy mv then jkey mv else kGET)))

/-- src/index.js `request`, the public entry point: path-string sugar, lazy
install, parameter normalisation under the injected fresh token `id`,
creation of the dummy handle (with the once-only callback wrapper when a
callback was supplied), registration in `requests` before submission, and
then immediate submission when loaded, buffering otherwise.  A throw from
the transport propagates to the caller with all prior mutations kept. -/
def request (env : Env) (st0 : St) (paramsIn : JVal) (hasFn : Bool) (id : String) :
    St × Option String :=
  let p0 := strSugar paramsIn
  let st1 := if st0.installed then st0 else install st0
  let np := normalizeParams env.supportsProgress p0 id
  let xs := st1.xhrs ++ [mkXhr np hasFn]
  let rs := reqSet st1.requests id st1.xhrs.length
  let st2 := { st1 with xhrs := xs, requests := rs }
  if st2.loaded then submitRequest env st2 np
  else
    match st2.buffered with
    | some l => ({ st2 with buffered := some (l ++ [np]) }, none)
    | none => (st2, some kTypeError)

def kPostError : String := "PostError"

def tokT : String := "t"

def tokAbc : String := "abc"

def evilOrigin : String := "https://evil.example"

def junkStr : String := "junk"

def pathMe : String := "/me"

/-- A structured-clone environment: no string serialisation, progress
support, inert parse, transport that never throws. -/
def envS : Env :=
  { postStrings := false, supportsProgress := true, parse := fun _ => Except.ok .null,
    postThrows := fun _ => false, postErr := kPostError }

/-- The string-serialising environment (`postStrings = true`). -/
def envPS : Env := { envS with postStrings := true }

/-- An environment whose transport throws on every payload. -/
def envT : Env := { envS with postThrows := fun _ => true }

/-- Ready state with one registered call: token `"t"` at handle 0, which has
a result callback. -/
def stReg : St :=
  { installed := true, loaded := true, buffered := none, hasFileSerializationBug := false,
    requests := [(tokT, 0)], xhrs := [mkXhr .null true], pabs := [], posted := [],
    submitLog := [] }

/-- A fresh, never-installed state. -/
def stFresh : St :=
  { installed := false, loaded := false, buffered := none, hasFileSerializationBug := false,
    requests := [], xhrs := [], pabs := [], posted := [], submitLog := [] }

/-- A canonical reply envelope for token `"t"`: null body, absent status,
no headers. -/
def dReply : JVal := .arr (je [.null, .null, .null, .str tokT])

/-- The progress fixture: upload marker, registered id. -/
def dProgUp : JFields :=
  jf [(kCallbackId, .str tokT), (kUpload, .bool true), (kLoaded, .num 5), (kTotal, .num 10)]

def pathA : String := "/a"

def pathB : String := "/b"

/-- Buffered-call fixtures. -/
def pA : JVal := .obj (jf [(kPath, .str pathA)])

def pB : JVal := .obj (jf [(kPath, .str pathB)])

/-- Installed but not yet ready, two calls buffered. -/
def stBuf : St :=
  { installed := true, loaded := false, buffered := some [pA, pB],
    hasFileSerializationBug := false, requests := [], xhrs := [], pabs := [], posted := [],
    submitLog := [] }

/-- Two-attachment form-data fixture. -/
def nameF1 : String := "f1"

def nameF2 : String := "f2"

def fileNameA : String := "a.txt"

def fileNameB : String := "b.txt"

def mimeText : String := "text/plain"

def fileA : JVal := .file fileNameA mimeText [1, 2]

def fileB : JVal := .file fileNameB mimeText [3]

def pFiles : JVal :=
  .obj (jf [(kFormData, .arr (je [.arr (je [.str nameF1, fileA]),
    .arr (je [.str nameF2, fileB])]))])

/-- Body fixture whose own `statusCode` field collides with the reply's. -/
def bC2 : JFields := jf [(kStatusCode, .num 999)]

/-- A 400 failure reply for token `"t"` whose body carries `statusCode: 999`. -/
def dC2 : JVal := .arr (je [.obj bC2, .num 400, .null, .str tokT])

/-- The failure object the dispatcher actually builds for `dC2`. -/
def eC2 : JFields := jf [(kStatusCode, .num 999)]

def strOk : String := "ok"

/-- A collision-free body fixture. -/
def bW : JFields := jf [(kMessage, .str strOk)]

def strX : String := "X"

def emptyStr : String := ""

/-- Body with a present-but-falsy `error` field and its own `name`. -/
def bC6x : JFields := jf [(kNameKey, .str strX), (kError, .str emptyStr)]

/-- A 400 failure reply for token `"t"` with body `bC6x`. -/
def dC6x : JVal := .arr (je [.obj bC6x, .num 400, .null, .str tokT])

/-- The failure object the dispatcher actually builds for `dC6x`. -/
def eC6x : JFields :=
  jf [(kStatusCode, .num 400), (kNameKey, .str strX), (kError, .str emptyStr)]

def strInvalidInput : String := "invalid_input"

def strBad : String := "bad"

def strInvalidInputError : String := "InvalidInputError"

/-- The spec's worked example body. -/
def bC6 : JFields := jf [(kError, .str strInvalidInput), (kMessage, .str strBad)]

/-- Character-list matching for the serialised-marker check. -/
def startsWithChars : List Char → List Char → Bool
  | _, [] => true
  | [], _ :: _ => false
  | c :: cs, d :: ds => c = d && startsWithChars cs ds

/-- Substring occurrence over character lists. -/
def hasSubChars : List Char → List Char → Bool
  | [], pat => startsWithChars [] pat
  | c :: cs, pat => startsWithChars (c :: cs) pat || hasSubChars cs pat

/-- Substring occurrence on strings. -/
def strContains (hay pat : String) : Bool := hasSubChars hay.toList pat.toList

/-- The serialised form of a stamped success marker. -/
def kSuccessJson : String := "\"success\""

/-- Whether a direct-path payload carries the success marker: a truthy
`success` property on a structured payload, or a serialised `"success"` key
inside a string payload. -/
def carriesSuccessMarker : JVal → Bool
  | .obj fs => truthy (jget fs kSuccess)
  | .str s => strContains s kSuccessJson
  | _ => false

/-- The string a `postStrings` channel is handed for a plain `/me` request
registered under token `"abc"`: no success marker anywhere in it. -/
def jsonNoMarker : String :=
  "\x7b\"path\":\"/me\",\"callback\":\"abc\",\"supports_args\":true,\"supports_progress\":true,\"method\":\"GET\"\x7d"

/-- Defect flag cached, one registered two-attachment call. -/
def stC4 : St := { stReg with hasFileSerializationBug := true, xhrs := [mkXhr pFiles true] }

/-- The fallback starts: two reads outstanding. -/
def c4Step1 : St × Option String := submitRequest envS stC4 pFiles

/-- The first attachment's read fails. -/
def c4Step2 : St × Option String := pabStep envS c4Step1.1 (.fileFail 0 0)

/-- The second attachment's read succeeds. -/
def c4Step3 : St × Option String := pabStep envS c4Step2.1 (.fileDone 0 1)

/-! Lemmas, claim theorems, witnesses and counterexamples. -/

/-- List-style induction for field lists (the mutual recursor is awkward for
functions that never descend into the values). -/
theorem jfields_induction {P : JFields → Prop} (h0 : P .nil)
    (h1 : ∀ (k : String) (v : JVal) (rest : JFields), P rest → P (.cons k v rest)) :
    ∀ fs, P fs
  | .nil => h0
  | .cons k v rest => h1 k v rest (jfields_induction h0 h1 rest)

/-- List-style induction for array elements. -/
theorem jelems_induction {P : JElems → Prop} (h0 : P .nil)
    (h1 : ∀ (v : JVal) (rest : JElems), P rest → P (.cons v rest)) :
    ∀ es, P es
  | .nil => h0
  | .cons v rest => h1 v rest (jelems_induction h0 h1 rest)

theorem jget_jset_self (fs : JFields) (k : String) (v : JVal) :
    jget (jset fs k v) k = v := by
  induction fs using jfields_induction with
  | h0 => simp [jset, jget]
  | h1 k0 v0 rest ih =>
      by_cases h : k0 = k
      · simp [jset, jget, h]
      · simp [jset, jget, h, ih]

theorem jget_jset_ne (fs : JFields) (k : String) (v : JVal) (k' : String) (h : k' ≠ k) :
    jget (jset fs k v) k' = jget fs k' := by
  have hks : k ≠ k' := Ne.symm h
  induction fs using jfields_induction with
  | h0 => simp [jset, jget, hks]
  | h1 k0 v0 rest ih =>
      by_cases h0 : k0 = k
      · subst h0
        simp [jset, jget, hks]
      · simp [jset, jget, h0, ih]

theorem jhas_iff_mem (fs : JFields) (k : String) :
    jhas fs k = true ↔ k ∈ jfKeys fs := by
  induction fs using jfields_induction with
  | h0 => simp [jhas, jfKeys]
  | h1 k0 v0 rest ih =>
      by_cases h : k0 = k
      · simp [jhas, jfKeys, h]
      · simp [jhas, jfKeys, h, ih, Ne.symm h]

/-- The dynamic field copy: under unique source keys, a key present in the
source reads back its source value, and any other key reads from the
destination. -/
theorem copyFields_jget (src : JFields) (dst : JFields) (k : String)
    (hnd : (jfKeys src).Nodup) :
    jget (copyFields dst src) k =
      if jhas src k then jget src k else jget dst k := by
  induction src using jfields_induction generalizing dst with
  | h0 => simp [copyFields, jhas]
  | h1 k0 v0 rest ih =>
      have hnd' : (jfKeys rest).Nodup := by
        simpa [jfKeys] using hnd.of_cons
      have hk0 : k0 ∉ jfKeys rest := by
        have h2 := hnd
        simp [jfKeys] at h2
        exact h2.1
      by_cases h : k0 = k
      · subst h
        have hrest : jhas rest k0 = false := by
          rcases hh : jhas rest k0
          · rfl
          · exact absurd ((jhas_iff_mem rest k0).mp hh) hk0
        simp [copyFields, ih _ hnd', jhas, jget, hrest, jget_jset_self]
      · by_cases hh : jhas rest k
        · simp [copyFields, ih _ hnd', jhas, jget, h, hh]
        · simp [copyFields, ih _ hnd', jhas, jget, h, hh,
            jget_jset_ne _ _ _ _ (Ne.symm h)]

theorem reqLookup_reqDelete_self (rs : List (String × Nat)) (k : String) :
    reqLookup (reqDelete rs k) k = none := by
  induction rs with
  | nil => simp [reqDelete, reqLookup]
  | cons p rest ih =>
      by_cases h : p.1 = k
      · simp [reqDelete, h, ih]
      · simp [reqDelete, reqLookup, h, ih]

theorem reqLookup_reqSet_self (rs : List (String × Nat)) (k : String) (i : Nat) :
    reqLookup (reqSet rs k i) k = some i := by
  induction rs with
  | nil => simp [reqSet, reqLookup]
  | cons p rest ih =>
      obtain ⟨a, b⟩ := p
      by_cases h : a = k
      · simp [reqSet, reqLookup, h, ih]
      · simp [reqSet, reqLookup, h, ih]

theorem updAt_getElem? (l : List Xhr) (i : Nat) (f : Xhr → Xhr) :
    (updAt l i f)[i]? = (l[i]?).map f := by
  induction l generalizing i with
  | nil => simp [updAt]
  | cons x xs ih =>
      cases i with
      | zero => simp [updAt]
      | succ n => simpa [updAt] using ih n

theorem dispatchOn_events (x : Xhr) (e : Evt) :
    (dispatchOn x e).events = x.events ++ [e] := by
  unfold dispatchOn
  by_cases hc : x.hasCb <;>
    by_cases h1 : e.type = kLoad <;>
      by_cases h2 : e.type = kAbort || e.type = kErrorEvt <;>
        by_cases h3 : x.called <;>
          simp [hc, h1, h2, h3]

theorem dispatchOn_uploadEvents (x : Xhr) (e : Evt) :
    (dispatchOn x e).uploadEvents = x.uploadEvents := by
  unfold dispatchOn
  by_cases hc : x.hasCb <;>
    by_cases h1 : e.type = kLoad <;>
      by_cases h2 : e.type = kAbort || e.type = kErrorEvt <;>
        by_cases h3 : x.called <;>
          simp [hc, h1, h2, h3]

/-- A `progress` event triggers none of the bound listeners. -/
theorem dispatchOn_progress (x : Xhr) (e : Evt) (h : e.type = kProgress) :
    dispatchOn x e = { x with events := x.events ++ [e] } := by
  have h1 : (kProgress = kLoad) = False := by decide
  have h2 : (kProgress = kAbort) = False := by decide
  have h3 : (kProgress = kErrorEvt) = False := by decide
  unfold dispatchOn
  by_cases hc : x.hasCb <;> simp [h, h1, h2, h3, hc]

/-- `Math.floor(n / 100) === 2` is exactly the closed range 200..299. -/
theorem fdiv100_eq2_iff (n : Int) : Int.fdiv n 100 = 2 ↔ 200 ≤ n ∧ n ≤ 299 := by
  rw [Int.fdiv_eq_ediv _ (by norm_num)]
  omega

/-- A params value that `hasFile` accepts carries an array `formData`. -/
theorem hasFile_formData (p : JVal) (h : hasFile p = true) :
    ∃ es, getProp p kFormData = .arr es ∧ elemsHaveFile es = true := by
  unfold hasFile at h
  revert h
  cases hv : getProp p kFormData <;> intro h <;> simp_all

theorem jlen_ne_zero (es : JElems) (h : es ≠ .nil) : jlen es ≠ 0 := by
  cases es with
  | nil => exact absurd rfl h
  | cons v rest => simp [jlen]

theorem jelemsGet?_last (es : JElems) (h : es ≠ .nil) :
    jelemsGet? es (jlen es - 1) = some (jlast es) := by
  induction es using jelems_induction with
  | h0 => exact absurd rfl h
  | h1 v rest ih =>
      cases rest with
      | nil => simp [jlen, jelemsGet?, jlast]
      | cons w rest2 =>
          have hr : JElems.cons w rest2 ≠ .nil := by intro hh; cases hh
          have hlen : jlen (JElems.cons v (.cons w rest2)) - 1 = jlen (JElems.cons w rest2) - 1 + 1 := by
            simp [jlen]
          rw [hlen]
          simpa [jelemsGet?, jlast] using ih hr

theorem getIdxI_arr_last (es : JElems) (h : es ≠ .nil) :
    getIdxI (.arr es) ((jlen es : Int) - 1) = jlast es := by
  have h1 : jlen es ≠ 0 := jlen_ne_zero es h
  have h2 : (0 : Int) ≤ (jlen es : Int) - 1 := by omega
  have h3 : ((jlen es : Int) - 1).toNat = jlen es - 1 := by omega
  simp [getIdxI, h2, h3, jelemsGet?_last es h]

theorem decodeData_arr (env : Env) (es : JElems) :
    decodeData env (.arr es) = .ok (.arr es) := by
  cases hp : env.postStrings <;> simp [decodeData, hp]

theorem decodeData_obj (env : Env) (fs : JFields) :
    decodeData env (.obj fs) = .ok (.obj fs) := by
  cases hp : env.postStrings <;> simp [decodeData, hp]

/-- An inbound array-shaped message: no progress markers, truthy length, and
correlation on the last element. -/
theorem onmessage_arr_eq (env : Env) (st : St) (es : JElems) (hne : es ≠ .nil) :
    onmessage env st proxyOrigin (.arr es) =
      match reqLookup st.requests (jkey (jlast es)) with
      | none => (st, none)
      | some ix =>
          afterLookup st (jkey (jlast es)) ix (getIdxI (.arr es) 0) (getIdxI (.arr es) 1)
            (getIdxI (.arr es) 2) := by
  have hu : (kUpload = kLength) = False := by decide
  have hd : (kDownload = kLength) = False := by decide
  have hlz : jlen es ≠ 0 := jlen_ne_zero es hne
  unfold onmessage
  rw [decodeData_arr]
  simp [truthy, getProp, hu, hd, hlz, jsToInt, getIdxI_arr_last es hne]

theorem afterLookup_requests (st : St) (tok : String) (ix : Nat) (b sc h : JVal) :
    (afterLookup st tok ix b sc h).1.requests = reqDelete st.requests tok := by
  simp only [afterLookup]
  split
  · simp [resolve]
  · split <;> simp [reject]

/-- A reply whose token is not registered is a no-op. -/
theorem onmessage_arr_unregistered (env : Env) (st : St) (es : JElems) (hne : es ≠ .nil)
    (h : reqLookup st.requests (jkey (jlast es)) = none) :
    onmessage env st proxyOrigin (.arr es) = (st, none) := by
  rw [onmessage_arr_eq env st es hne, h]

/-- The once-only wrapper invariant: an un-called wrapper has made no calls,
and in any state at most one call has been made. -/
theorem dispatchOn_cb_inv (x : Xhr) (e : Evt)
    (h : (x.called = false → x.cbCalls = []) ∧ x.cbCalls.length ≤ 1) :
    ((dispatchOn x e).called = false → (dispatchOn x e).cbCalls = []) ∧
      (dispatchOn x e).cbCalls.length ≤ 1 := by
  obtain ⟨h1, h2⟩ := h
  unfold dispatchOn
  by_cases hc : x.hasCb <;>
    by_cases ht1 : e.type = kLoad <;>
      by_cases ht2 : e.type = kAbort || e.type = kErrorEvt <;>
        by_cases hcl : x.called <;>
          simp_all

theorem foldl_dispatchOn_cb (evs : List Evt) (x0 : Xhr)
    (h : (x0.called = false → x0.cbCalls = []) ∧ x0.cbCalls.length ≤ 1) :
    (evs.foldl dispatchOn x0).cbCalls.length ≤ 1 := by
  induction evs generalizing x0 with
  | nil => exact h.2
  | cons e rest ih => exact ih (dispatchOn x0 e) (dispatchOn_cb_inv x0 e h)

/-- Claim C7: every inbound message whose declared origin differs from the
expected remote origin is a complete no-op regardless of the payload shape —
the state (registry, handles, channel trace) is returned unchanged and no
exception is raised. -/
theorem C7_origin_mismatch_noop (env : Env) (st : St) (o : String) (d : JVal)
    (h : o ≠ proxyOrigin) : onmessage env st o d = (st, none) := by
  simp [onmessage, h]

theorem C7_witness :
    evilOrigin ≠ proxyOrigin ∧
      onmessage envS stReg evilOrigin (.str junkStr) = (stReg, none) :=
  ⟨by decide, C7_origin_mismatch_noop envS stReg evilOrigin (.str junkStr) (by decide)⟩

/-- Claim C1: for a registered token, the dispatcher removes the registry
entry before any resolution (after the reply the token is unregistered), a
second inbound reply carrying the same token is a no-op, and a result
callback supplied to the entry point fires at most once no matter which and
how many load/error/abort events are dispatched on the handle. -/
theorem C1_terminal_result_at_most_once (env : Env) (st : St) (es : JElems) (tok : String)
    (ix : Nat) (hne : es ≠ JElems.nil) (htok : jkey (jlast es) = tok)
    (hreg : reqLookup st.requests tok = some ix) :
    reqLookup (onmessage env st proxyOrigin (.arr es)).1.requests tok = none ∧
    onmessage env (onmessage env st proxyOrigin (.arr es)).1 proxyOrigin (.arr es) =
      ((onmessage env st proxyOrigin (.arr es)).1, none) ∧
    ∀ (x0 : Xhr) (evs : List Evt), x0.called = false → x0.cbCalls = [] →
      (evs.foldl dispatchOn x0).cbCalls.length ≤ 1 := by
  have h1 : (onmessage env st proxyOrigin (.arr es)).1.requests = reqDelete st.requests tok := by
    rw [onmessage_arr_eq env st es hne, htok, hreg]
    simpa using afterLookup_requests st tok ix (getIdxI (.arr es) 0) (getIdxI (.arr es) 1)
      (getIdxI (.arr es) 2)
  have h2 : reqLookup (onmessage env st proxyOrigin (.arr es)).1.requests tok = none := by
    rw [h1]
    exact reqLookup_reqDelete_self _ _
  refine ⟨h2, ?_, fun x0 evs hc hcb => foldl_dispatchOn_cb evs x0 ⟨fun _ => hcb, by simp [hcb]⟩⟩
  exact onmessage_arr_unregistered env _ es hne (by rw [htok]; exact h2)

theorem C1_witness :
    reqLookup stReg.requests tokT = some 0 ∧
    reqLookup (onmessage envS stReg proxyOrigin dReply).1.requests tokT = none ∧
    onmessage envS (onmessage envS stReg proxyOrigin dReply).1 proxyOrigin dReply =
      ((onmessage envS stReg proxyOrigin dReply).1, none) ∧
    ∀ (x0 : Xhr) (evs : List Evt), x0.called = false → x0.cbCalls = [] →
      (evs.foldl dispatchOn x0).cbCalls.length ≤ 1 := by
  refine ⟨rfl, ?_⟩
  have h := C1_terminal_result_at_most_once envS stReg (je [.null, .null, .null, .str tokT])
    tokT 0 (by decide) rfl rfl
  exact h

/-- A payload with a truthy upload or download marker is routed to
`onprogress` and nothing else. -/
theorem onmessage_obj_progress (env : Env) (st : St) (fs : JFields)
    (hp : (truthy (jget fs kUpload) || truthy (jget fs kDownload)) = true) :
    onmessage env st proxyOrigin (.obj fs) = (onprogress st (.obj fs), none) := by
  have h := hp
  rw [Bool.or_eq_true] at h
  unfold onmessage
  rw [decodeData_obj]
  rcases h with h | h <;>
    simp [getProp, h, show truthy (JVal.obj fs) = true from rfl]

/-- Claim C9: a progress notification (an inbound payload carrying an upload
or download marker) for a registered correlation id dispatches one progress
event — on the call's upload target exactly when the upload marker is
truthy, and on the call handle (the download side) otherwise — never removes
the call from the registry and raises nothing; a notification whose id is
not registered is silently ignored. -/
theorem C9_progress_routing (env : Env) (st : St) (fs : JFields)
    (hclass : (truthy (jget fs kUpload) || truthy (jget fs kDownload)) = true) :
    (reqLookup st.requests (jkey (jget fs kCallbackId)) = none →
      onmessage env st proxyOrigin (.obj fs) = (st, none)) ∧
    (∀ ix x, reqLookup st.requests (jkey (jget fs kCallbackId)) = some ix →
      st.xhrs[ix]? = some x →
      (onmessage env st proxyOrigin (.obj fs)).2 = none ∧
      (onmessage env st proxyOrigin (.obj fs)).1.requests = st.requests ∧
      (truthy (jget fs kUpload) = true →
        (onmessage env st proxyOrigin (.obj fs)).1.xhrs[ix]? =
          some { x with uploadEvents := x.uploadEvents ++ [progressEvt (.obj fs)] }) ∧
      (truthy (jget fs kUpload) = false →
        (onmessage env st proxyOrigin (.obj fs)).1.xhrs[ix]? =
          some { x with events := x.events ++ [progressEvt (.obj fs)] })) := by
  have hr := onmessage_obj_progress env st fs hclass
  constructor
  · intro hnone
    rw [hr]
    simp [onprogress, getProp, hnone]
  · intro ix x hreg hx
    rw [hr]
    by_cases hu : truthy (jget fs kUpload)
    · simp [onprogress, getProp, hreg, hu, updAt_getElem?, hx, dispatchUpload]
    · simp [onprogress, getProp, hreg, hu, updAt_getElem?, hx,
        dispatchOn_progress _ (progressEvt (.obj fs)) rfl]

theorem C9_witness :
    (truthy (jget dProgUp kUpload) || truthy (jget dProgUp kDownload)) = true ∧
    reqLookup stReg.requests (jkey (jget dProgUp kCallbackId)) = some 0 ∧
    (onmessage envS stReg proxyOrigin (.obj dProgUp)).1.requests = stReg.requests ∧
    (onmessage envS stReg proxyOrigin (.obj dProgUp)).1.xhrs[0]? =
      some { mkXhr .null true with uploadEvents := [progressEvt (.obj dProgUp)] } := by
  have h := C9_progress_routing envS stReg dProgUp (by decide)
  obtain ⟨-, h2⟩ := h
  have h3 := h2 0 (mkXhr .null true) rfl rfl
  exact ⟨by decide, rfl, h3.2.1, by simpa [mkXhr] using h3.2.2.1 (by decide)⟩

/-- Under a transport that does not throw, one submission never raises, logs
exactly its parameter set, and touches neither the buffer, the readiness
flag nor the installed flag. -/
theorem submitRequest_no_throw (env : Env) (st : St) (p : JVal)
    (hthrow : ∀ v, env.postThrows v = false) :
    (submitRequest env st p).2 = none ∧
    (submitRequest env st p).1.submitLog = st.submitLog ++ [p] ∧
    (submitRequest env st p).1.buffered = st.buffered ∧
    (submitRequest env st p).1.loaded = st.loaded ∧
    (submitRequest env st p).1.installed = st.installed := by
  unfold submitRequest
  by_cases hb : (st.hasFileSerializationBug && hasFile p) = true
  · have hb' := hb
    rw [Bool.and_eq_true] at hb'
    obtain ⟨es, hes, -⟩ := hasFile_formData p hb'.2
    unfold postAsArrayBuffer
    rw [hes]
    by_cases hn : countFiles es = 0
    · simp [hb, hn, doPost, hthrow]
    · simp [hb, hn]
  · simp [hb, doPost, hthrow]

/-- The flush loop under a non-throwing transport: no exception, the whole
list appended to the submission log in order, buffer/readiness/installed
untouched. -/
theorem flushLoop_no_throw (env : Env) (l : List JVal) (st : St)
    (hthrow : ∀ v, env.postThrows v = false) :
    (flushLoop env st l).2 = none ∧
    (flushLoop env st l).1.submitLog = st.submitLog ++ l ∧
    (flushLoop env st l).1.buffered = st.buffered ∧
    (flushLoop env st l).1.loaded = st.loaded ∧
    (flushLoop env st l).1.installed = st.installed := by
  induction l generalizing st with
  | nil => simp [flushLoop]
  | cons p ps ih =>
      obtain ⟨h1, h2, h3, h4, h5⟩ := submitRequest_no_throw env st p hthrow
      rcases hs : submitRequest env st p with ⟨st1, e⟩
      rw [hs] at h1 h2 h3 h4 h5
      simp only at h1 h2 h3 h4 h5
      subst h1
      obtain ⟨g1, g2, g3, g4, g5⟩ := ih st1
      simp [flushLoop, hs, g1, g2, g3, g4, g5, h2, h3, h4, h5]

/-- A call made when the channel is ready and installed: no buffering, one
immediate submission. -/
theorem request_after_ready (env : Env) (st : St) (p : JVal) (b : Bool) (id : String)
    (hthrow : ∀ v, env.postThrows v = false)
    (hload : st.loaded = true) (hinst : st.installed = true) :
    (request env st p b id).2 = none ∧
    (request env st p b id).1.buffered = st.buffered ∧
    (request env st p b id).1.submitLog =
      st.submitLog ++ [normalizeParams env.supportsProgress (strSugar p) id] := by
  unfold request
  simp only [hinst, hload, if_true]
  exact ⟨(submitRequest_no_throw env _ _ hthrow).1,
    (submitRequest_no_throw env _ _ hthrow).2.2.1,
    (submitRequest_no_throw env _ _ hthrow).2.1⟩

/-- Claim C3: a call issued before the ready transition is appended to the
buffered queue (with no submission); the single ready transition submits the
whole queue exactly once, in strict FIFO submission order, and nulls the
queue; a second ready signal submits nothing; and a call issued after the
transition is submitted immediately and bypasses the buffer. -/
theorem C3_buffering_and_fifo_flush (env : Env) (st : St) (l : List JVal)
    (hthrow : ∀ v, env.postThrows v = false)
    (hload : st.loaded = false) (hbuf : st.buffered = some l) (hinst : st.installed = true) :
    (∀ p b id, (request env st p b id).2 = none ∧
       (request env st p b id).1.buffered =
         some (l ++ [normalizeParams env.supportsProgress (strSugar p) id]) ∧
       (request env st p b id).1.submitLog = st.submitLog) ∧
    (onload env st).2 = none ∧
    (onload env st).1.loaded = true ∧
    (onload env st).1.buffered = none ∧
    (onload env st).1.submitLog = st.submitLog ++ l ∧
    (onload env (onload env st).1).1.submitLog = (onload env st).1.submitLog ∧
    (∀ p b id, (request env (onload env st).1 p b id).2 = none ∧
       (request env (onload env st).1 p b id).1.buffered = none ∧
       (request env (onload env st).1 p b id).1.submitLog =
         (onload env st).1.submitLog ++ [normalizeParams env.supportsProgress (strSugar p) id]) := by
  obtain ⟨f1, f2, f3, f4, f5⟩ :=
    flushLoop_no_throw env l { st with loaded := true } hthrow
  rcases hf : flushLoop env { st with loaded := true } l with ⟨stf, e⟩
  rw [hf] at f1 f2 f3 f4 f5
  simp only at f1 f2 f3 f4 f5
  subst f1
  rw [hbuf] at hf
  have honload : onload env st = ({ stf with buffered := none }, none) := by
    unfold onload
    rw [hbuf]
    simp [hf]
  refine ⟨?_, ?_, ?_, ?_, ?_, ?_, ?_⟩
  · intro p b id
    unfold request
    simp [hinst, hload, hbuf]
  · simp [honload]
  · simp [honload, f4]
  · simp [honload]
  · simp [honload, f2]
  · rw [honload]
    unfold onload
    simp
  · intro p b id
    rw [honload]
    have h := request_after_ready env { stf with buffered := none } p b id hthrow
      (by simpa using f4) (by simpa using (f5.trans hinst))
    simpa [f2] using h

theorem C3_witness :
    (∀ v, envS.postThrows v = false) ∧ stBuf.loaded = false ∧
    stBuf.buffered = some [pA, pB] ∧ stBuf.installed = true ∧
    (onload envS stBuf).2 = none ∧
    (onload envS stBuf).1.buffered = none ∧
    (onload envS stBuf).1.submitLog = [pA, pB] := by
  have h := C3_buffering_and_fifo_flush envS stBuf [pA, pB] (fun v => rfl) rfl rfl rfl
  exact ⟨fun v => rfl, rfl, rfl, rfl, h.2.1, h.2.2.2.1, by simpa using h.2.2.2.2.1⟩

theorem countFiles_ne_zero (es : JElems) (h : elemsHaveFile es = true) :
    countFiles es ≠ 0 := by
  induction es using jelems_induction with
  | h0 => simp [elemsHaveFile] at h
  | h1 v rest ih =>
      rw [elemsHaveFile, Bool.or_eq_true] at h
      rcases h with h | h
      · simp [countFiles, h]
      · have h2 := ih h
        simp [countFiles]
        omega

/-- Starting the fallback on a params value with at least one attachment
opens one read session and posts nothing. -/
theorem postAsArrayBuffer_start (env : Env) (st : St) (p : JVal) (es : JElems)
    (hes : getProp p kFormData = .arr es) (hn : countFiles es ≠ 0) :
    postAsArrayBuffer env st p =
      ({ st with pabs := st.pabs ++ [⟨p, (countFiles es : Int), false⟩] }, none) := by
  unfold postAsArrayBuffer
  rw [hes]
  simp [hn]

/-- Claim C8: when the direct transport throws synchronously and the posted
value carries no binary attachment in its form-data list, the exception is
rethrown to the caller — the defect flag stays untouched and no fallback
happens; the defect flag is set and the fallback taken only when a binary
attachment is present (and then no exception escapes). -/
theorem C8_rethrow_or_fallback (env : Env) (st : St) (p : JVal)
    (hdirect : (st.hasFileSerializationBug && hasFile p) = false)
    (hthrow : env.postThrows (directPayload env p) = true) :
    (hasFile (directPayload env p) = false →
      submitRequest env st p =
        ({ st with submitLog := st.submitLog ++ [p] }, some env.postErr)) ∧
    (hasFile (directPayload env p) = true →
      (submitRequest env st p).2 = none ∧
      (submitRequest env st p).1.hasFileSerializationBug = true ∧
      (submitRequest env st p).1.posted = st.posted ∧
      (submitRequest env st p).1.pabs.length = st.pabs.length + 1) := by
  constructor
  · intro hnf
    unfold submitRequest
    simp [hdirect, hthrow, hnf]
  · intro hf
    obtain ⟨es, hes, hef⟩ := hasFile_formData _ hf
    have hcount : countFiles es ≠ 0 := countFiles_ne_zero es hef
    have hpab : ∀ s, postAsArrayBuffer env s (directPayload env p) =
        ({ s with pabs := s.pabs ++ [⟨directPayload env p, (countFiles es : Int), false⟩] },
          none) :=
      fun s => postAsArrayBuffer_start env s (directPayload env p) es hes hcount
    unfold submitRequest
    simp [hdirect, hthrow, hf, hpab]

theorem C8_witness :
    (stFresh.hasFileSerializationBug && hasFile pA) = false ∧
    envT.postThrows (directPayload envT pA) = true ∧
    hasFile (directPayload envT pA) = false ∧
    submitRequest envT stFresh pA = ({ stFresh with submitLog := [pA] }, some kPostError) ∧
    (stFresh.hasFileSerializationBug && hasFile pFiles) = false ∧
    hasFile (directPayload envT pFiles) = true ∧
    (submitRequest envT stFresh pFiles).2 = none ∧
    (submitRequest envT stFresh pFiles).1.hasFileSerializationBug = true ∧
    (submitRequest envT stFresh pFiles).1.posted = [] := by
  have h1 := C8_rethrow_or_fallback envT stFresh pA rfl rfl
  have h2 := C8_rethrow_or_fallback envT stFresh pFiles rfl rfl
  have h3 := h2.2 (by decide)
  exact ⟨rfl, rfl, by decide, by simpa using h1.1 (by decide), rfl, by decide,
    h3.1, h3.2.1, h3.2.2.1⟩

theorem getProp_jsetProp_ne (v : JVal) (k k' : String) (w : JVal) (h : k' ≠ k) :
    getProp (jsetProp v k w) k' = getProp v k' := by
  cases v <;> simp [jsetProp, getProp, jget_jset_ne _ _ _ _ h]

/-- `hasFile` only looks at the `formData` property. -/
theorem hasFile_congr (v w : JVal) (h : getProp v kFormData = getProp w kFormData) :
    hasFile v = hasFile w := by
  unfold hasFile
  rw [h]

theorem hasFile_normalizeParams (sp : Bool) (v : JVal) (id : String) :
    hasFile (normalizeParams sp v id) = hasFile v := by
  unfold normalizeParams
  refine hasFile_congr _ _ ?_
  rw [getProp_jsetProp_ne _ _ _ _ (by decide : kFormData ≠ kMethod),
    getProp_jsetProp_ne _ _ _ _ (by decide : kFormData ≠ kSupportsProgress),
    getProp_jsetProp_ne _ _ _ _ (by decide : kFormData ≠ kSupportsArgs),
    getProp_jsetProp_ne _ _ _ _ (by decide : kFormData ≠ kCallback)]

theorem hasFile_directPayload (env : Env) (v : JVal) (h : hasFile v = false) :
    hasFile (directPayload env v) = false := by
  by_cases hp : env.postStrings = true
  · simp [directPayload, hp, jsetProp, hasFile, getProp,
      show kFormData ≠ kLength from by decide]
  · simp only [directPayload, if_neg hp]
    rw [hasFile_congr _ v (getProp_jsetProp_ne v kSuccess kFormData (JVal.bool true)
      (by decide))]
    exact h

/-- The rethrow branch of `submitRequest` (src/index.js 240-243): state keeps
the pre-throw mutations, the exception propagates. -/
theorem submitRequest_rethrow (env : Env) (st : St) (p : JVal)
    (hdirect : (st.hasFileSerializationBug && hasFile p) = false)
    (hthrow : env.postThrows (directPayload env p) = true)
    (hnf : hasFile (directPayload env p) = false) :
    submitRequest env st p =
      ({ st with submitLog := st.submitLog ++ [p] }, some env.postErr) := by
  unfold submitRequest
  simp [hdirect, hthrow, hnf]

theorem je_ne_nil (v : JVal) (l : List JVal) : je (v :: l) ≠ .nil := by
  simp [je]

/-- Claim C10: when a call made after readiness causes the direct transport
to throw for a non-attachment reason, the registration performed before the
submission is not rolled back — the exception propagates, but the token
stays mapped to the new handle, and a later inbound reply bearing the token
is still resolved onto that handle. -/
theorem C10_no_rollback_on_throw (env : Env) (st : St) (p : JVal) (b : Bool) (id : String)
    (hload : st.loaded = true) (hinst : st.installed = true)
    (hthrow : ∀ v, env.postThrows v = true)
    (hbug : st.hasFileSerializationBug = false)
    (hnf : hasFile (strSugar p) = false) :
    (request env st p b id).2 = some env.postErr ∧
    reqLookup (request env st p b id).1.requests id = some st.xhrs.length ∧
    (request env st p b id).1.xhrs[st.xhrs.length]? =
      some (mkXhr (normalizeParams env.supportsProgress (strSugar p) id) b) ∧
    (onmessage env (request env st p b id).1 proxyOrigin
        (.arr (je [.null, .null, .null, .str id]))).2 = none ∧
    ∃ x, (onmessage env (request env st p b id).1 proxyOrigin
        (.arr (je [.null, .null, .null, .str id]))).1.xhrs[st.xhrs.length]? = some x ∧
      x.events = [⟨kLoad, [(kData, .null), (kBody, .null), (kResponse, .null)]⟩] := by
  have hnp : hasFile (normalizeParams env.supportsProgress (strSugar p) id) = false := by
    rw [hasFile_normalizeParams]
    exact hnf
  have hd2 : hasFile (directPayload env (normalizeParams env.supportsProgress (strSugar p) id))
      = false := hasFile_directPayload env _ hnp
  have hreq : request env st p b id =
      ({ st with
          xhrs := st.xhrs ++ [mkXhr (normalizeParams env.supportsProgress (strSugar p) id) b],
          requests := reqSet st.requests id st.xhrs.length,
          submitLog := st.submitLog ++ [normalizeParams env.supportsProgress (strSugar p) id] },
        some env.postErr) := by
    unfold request
    simp only [hinst, hload, if_true]
    rw [submitRequest_rethrow env _ _ (by simp [hbug]) (hthrow _) hd2]
  have hrr : reqLookup (request env st p b id).1.requests id = some st.xhrs.length := by
    rw [hreq]
    exact reqLookup_reqSet_self _ _ _
  have hxl : (request env st p b id).1.xhrs[st.xhrs.length]? =
      some (mkXhr (normalizeParams env.supportsProgress (strSugar p) id) b) := by
    rw [hreq]
    exact List.getElem?_concat_length _ _
  have hmsg := onmessage_arr_eq env (request env st p b id).1
    (je [.null, .null, .null, .str id]) (je_ne_nil _ _)
  have hlast : jkey (jlast (je [.null, .null, .null, .str id])) = id := rfl
  rw [hlast] at hmsg
  rw [hrr] at hmsg
  dsimp only at hmsg
  have hafter : afterLookup (request env st p b id).1 id st.xhrs.length
      (getIdxI (.arr (je [.null, .null, .null, .str id])) 0)
      (getIdxI (.arr (je [.null, .null, .null, .str id])) 1)
      (getIdxI (.arr (je [.null, .null, .null, .str id])) 2) =
      ({ (request env st p b id).1 with
          requests := reqDelete (request env st p b id).1.requests id,
          xhrs := updAt (request env st p b id).1.xhrs st.xhrs.length
            (fun x => dispatchOn x ⟨kLoad, [(kData, .null), (kBody, .null), (kResponse, .null)]⟩) },
        none) := by
    unfold afterLookup
    simp [getIdxI, jelemsGet?, je, attachHeaders, truthy, looseNull, resolve]
  rw [hafter] at hmsg
  refine ⟨by rw [hreq], hrr, hxl, by rw [hmsg], ?_⟩
  refine ⟨dispatchOn (mkXhr (normalizeParams env.supportsProgress (strSugar p) id) b)
      ⟨kLoad, [(kData, .null), (kBody, .null), (kResponse, .null)]⟩, ?_, ?_⟩
  · rw [hmsg]
    simp only [updAt_getElem?, hxl]
    rfl
  · rw [dispatchOn_events]
    simp [mkXhr]

theorem C10_witness :
    stReg.loaded = true ∧ stReg.installed = true ∧
    (∀ v, envT.postThrows v = true) ∧ stReg.hasFileSerializationBug = false ∧
    hasFile (strSugar pA) = false ∧
    (request envT stReg pA true tokAbc).2 = some kPostError ∧
    reqLookup (request envT stReg pA true tokAbc).1.requests tokAbc = some 1 ∧
    (onmessage envT (request envT stReg pA true tokAbc).1 proxyOrigin
        (.arr (je [.null, .null, .null, .str tokAbc]))).2 = none := by
  have h := C10_no_rollback_on_throw envT stReg pA true tokAbc rfl rfl (fun v => rfl) rfl
    (by decide)
  exact ⟨rfl, rfl, fun v => rfl, rfl, by decide, h.1, h.2.1, h.2.2.2.1⟩

theorem resolve_xhrRef (st : St) (ix : Nat) (body : JVal) :
    resolve st (.xhrRef ix) body =
      ({ st with xhrs := updAt st.xhrs ix (fun x =>
          dispatchOn x ⟨kLoad, [(kData, body), (kBody, body), (kResponse, body)]⟩) },
        none) := rfl

theorem reject_xhrRef (st : St) (ix : Nat) (err : JVal) :
    reject st (.xhrRef ix) err =
      ({ st with xhrs := updAt st.xhrs ix (fun x =>
          dispatchOn x ⟨kErrorEvt, [(kError, err), (kErr, err)]⟩) },
        none) := rfl

theorem attachHeaders_obj (bprops : JFields) (hdrs : JVal) :
    attachHeaders (.obj bprops) hdrs =
      .obj (if truthy hdrs then jset bprops kHeadersField hdrs else bprops) := by
  by_cases h : truthy hdrs = true <;>
    simp [attachHeaders, jsetProp, h, show truthy (JVal.obj bprops) = true from rfl]

/-- `afterLookup` on an object body: headers attached when truthy, then the
success/failure split, with the failure object built by statusCode-first
copy-over and the optional derived name. -/
theorem afterLookup_obj (st : St) (tok : String) (ix : Nat) (bprops : JFields)
    (sc hdrs : JVal) (bfin : JFields)
    (hbfin : bfin = if truthy hdrs then jset bprops kHeadersField hdrs else bprops) :
    afterLookup st tok ix (.obj bprops) sc hdrs =
      if looseNull sc || floorDiv100Eq2 sc then
        resolve { st with requests := reqDelete st.requests tok } (.xhrRef ix) (.obj bfin)
      else
        reject { st with requests := reqDelete st.requests tok } (.xhrRef ix)
          (.obj (if truthy (jget bfin kError) then
              jset (copyFields (.cons kStatusCode sc .nil) bfin) kNameKey
                (.str (toTitle (jget bfin kError) ++ kErrorSuffix))
            else copyFields (.cons kStatusCode sc .nil) bfin)) := by
  subst hbfin
  unfold afterLookup
  rw [attachHeaders_obj]
  by_cases h : (looseNull sc || floorDiv100Eq2 sc) = true <;>
    simp [h, ownEnumProps, getProp]

/-- Fields of the constructed failure object: every body field is copied
(the body's own `statusCode`, if any, overwrites the stamped one), the
stamped `statusCode` survives only when the body has none, and a truthy
`error` field derives the name. -/
theorem errFields_props (bfin : JFields) (sc : JVal) (E : JFields)
    (hnd : (jfKeys bfin).Nodup)
    (hE : E = if truthy (jget bfin kError) then
        jset (copyFields (.cons kStatusCode sc .nil) bfin) kNameKey
          (.str (toTitle (jget bfin kError) ++ kErrorSuffix))
      else copyFields (.cons kStatusCode sc .nil) bfin) :
    (∀ k, jhas bfin k = true → ¬(k = kNameKey ∧ truthy (jget bfin kError) = true) →
      jget E k = jget bfin k) ∧
    (jhas bfin kStatusCode = false → jget E kStatusCode = sc) ∧
    (jhas bfin kStatusCode = true → jget E kStatusCode = jget bfin kStatusCode) ∧
    (truthy (jget bfin kError) = true →
      jget E kNameKey = .str (toTitle (jget bfin kError) ++ kErrorSuffix)) := by
  subst hE
  have hcopy : ∀ k, jget (copyFields (.cons kStatusCode sc .nil) bfin) k =
      if jhas bfin k then jget bfin k else jget (.cons kStatusCode sc .nil) k :=
    fun k => copyFields_jget bfin _ k hnd
  by_cases he : truthy (jget bfin kError) = true
  · refine ⟨?_, ?_, ?_, ?_⟩
    · intro k hk hguard
      have hkn : k ≠ kNameKey := fun hh => hguard ⟨hh, he⟩
      rw [if_pos he, jget_jset_ne _ _ _ _ hkn, hcopy k, if_pos hk]
    · intro habs
      rw [if_pos he, jget_jset_ne _ _ _ _ (by decide : kStatusCode ≠ kNameKey), hcopy _,
        if_neg (by simp [habs])]
      simp [jget]
    · intro hpres
      rw [if_pos he, jget_jset_ne _ _ _ _ (by decide : kStatusCode ≠ kNameKey), hcopy _,
        if_pos hpres]
    · intro _
      rw [if_pos he, jget_jset_self]
  · refine ⟨?_, ?_, ?_, ?_⟩
    · intro k hk _
      rw [if_neg he, hcopy k, if_pos hk]
    · intro habs
      rw [if_neg he, hcopy _, if_neg (by simp [habs])]
      simp [jget]
    · intro hpres
      rw [if_neg he, hcopy _, if_pos hpres]
    · intro hh
      exact absurd hh he

/-- Claim C2 (amended): for a registered reply with an object body, an absent
(null/undefined) status code or one in [200,299] takes the success path and
delivers the (header-attached) body in a load event; any other integral
status code takes the failure path, dispatching an error object that carries
a copy of every field of the reply body — where a truthy `error` field
additionally derives the object's name, overriding a copied `name` — and
whose `statusCode` field equals the reply's status code unless the body
itself has a `statusCode` field, in which case the dynamic copy overwrites
it with the body's value. -/
theorem C2_status_classification (env : Env) (st : St) (bprops : JFields)
    (sc hdrs : JVal) (tok : String) (ix : Nat) (x : Xhr) (bfin : JFields)
    (hreg : reqLookup st.requests tok = some ix)
    (hx : st.xhrs[ix]? = some x)
    (hbfin : bfin = if truthy hdrs then jset bprops kHeadersField hdrs else bprops)
    (hnd : (jfKeys bfin).Nodup) :
    (onmessage env st proxyOrigin (.arr (je [.obj bprops, sc, hdrs, .str tok]))).1.requests =
      reqDelete st.requests tok ∧
    ((looseNull sc = true ∨ ∃ n, sc = .num n ∧ 200 ≤ n ∧ n ≤ 299) →
      (onmessage env st proxyOrigin (.arr (je [.obj bprops, sc, hdrs, .str tok]))).2 = none ∧
      ∃ x', (onmessage env st proxyOrigin
          (.arr (je [.obj bprops, sc, hdrs, .str tok]))).1.xhrs[ix]? = some x' ∧
        x'.events = x.events ++
          [⟨kLoad, [(kData, .obj bfin), (kBody, .obj bfin), (kResponse, .obj bfin)]⟩]) ∧
    (∀ n, sc = .num n → ¬(200 ≤ n ∧ n ≤ 299) →
      (onmessage env st proxyOrigin (.arr (je [.obj bprops, sc, hdrs, .str tok]))).2 = none ∧
      ∃ x' E, (onmessage env st proxyOrigin
          (.arr (je [.obj bprops, sc, hdrs, .str tok]))).1.xhrs[ix]? = some x' ∧
        x'.events = x.events ++ [⟨kErrorEvt, [(kError, .obj E), (kErr, .obj E)]⟩] ∧
        (∀ k, jhas bfin k = true → ¬(k = kNameKey ∧ truthy (jget bfin kError) = true) →
          jget E k = jget bfin k) ∧
        (jhas bfin kStatusCode = false → jget E kStatusCode = .num n) ∧
        (jhas bfin kStatusCode = true → jget E kStatusCode = jget bfin kStatusCode) ∧
        (truthy (jget bfin kError) = true →
          jget E kNameKey = .str (toTitle (jget bfin kError) ++ kErrorSuffix))) := by
  have hmsg := onmessage_arr_eq env st (je [.obj bprops, sc, hdrs, .str tok]) (je_ne_nil _ _)
  have hlast : jkey (jlast (je [.obj bprops, sc, hdrs, .str tok])) = tok := rfl
  rw [hlast, hreg] at hmsg
  dsimp only at hmsg
  have hidx0 : getIdxI (.arr (je [.obj bprops, sc, hdrs, .str tok])) 0 = .obj bprops := rfl
  have hidx1 : getIdxI (.arr (je [.obj bprops, sc, hdrs, .str tok])) 1 = sc := rfl
  have hidx2 : getIdxI (.arr (je [.obj bprops, sc, hdrs, .str tok])) 2 = hdrs := rfl
  rw [hidx0, hidx1, hidx2, afterLookup_obj st tok ix bprops sc hdrs bfin hbfin] at hmsg
  refine ⟨?_, ?_, ?_⟩
  · rw [hmsg]
    by_cases hcl : (looseNull sc || floorDiv100Eq2 sc) = true <;>
      simp [hcl, resolve_xhrRef, reject_xhrRef]
  · intro hsucc
    have hcl : (looseNull sc || floorDiv100Eq2 sc) = true := by
      rcases hsucc with h | ⟨n, rfl, h1, h2⟩
      · simp [h]
      · simp [floorDiv100Eq2, (fdiv100_eq2_iff n).mpr ⟨h1, h2⟩]
    rw [hmsg, if_pos hcl, resolve_xhrRef]
    refine ⟨rfl, dispatchOn x ⟨kLoad, [(kData, .obj bfin), (kBody, .obj bfin),
      (kResponse, .obj bfin)]⟩, ?_, dispatchOn_events _ _⟩
    simp only [updAt_getElem?, hx]
    rfl
  · intro n hn hnr
    subst hn
    have h1 : looseNull (.num n) = false := rfl
    have h2 : floorDiv100Eq2 (.num n) = false := by
      simp only [floorDiv100Eq2, decide_eq_false_iff_not]
      intro hh
      exact hnr ((fdiv100_eq2_iff n).mp hh)
    rw [hmsg, if_neg (by simp [h1, h2]), reject_xhrRef]
    obtain ⟨g1, g2, g3, g4⟩ := errFields_props bfin (.num n)
      (if truthy (jget bfin kError) then
        jset (copyFields (.cons kStatusCode (.num n) .nil) bfin) kNameKey
          (.str (toTitle (jget bfin kError) ++ kErrorSuffix))
      else copyFields (.cons kStatusCode (.num n) .nil) bfin) hnd rfl
    refine ⟨rfl, dispatchOn x ⟨kErrorEvt, [(kError, .obj _), (kErr, .obj _)]⟩, _, ?_,
      dispatchOn_events _ _, g1, g2, g3, g4⟩
    simp only [updAt_getElem?, hx]
    rfl

/-- Counterexample to claim C2 as stated: a reply at status 400 whose body
carries its own `statusCode: 999` field produces a failure object whose
`statusCode` is 999, not the reply's 400 — the dynamic field copy runs after
`err.statusCode = statusCode` and overwrites the stamp. -/
theorem C2_counterexample :
    (onmessage envS stReg proxyOrigin dC2).1.xhrs.map (fun x => x.events) =
      [[⟨kErrorEvt, [(kError, .obj eC2), (kErr, .obj eC2)]⟩]] ∧
    jget eC2 kStatusCode = .num 999 ∧ JVal.num 999 ≠ JVal.num 400 :=
  ⟨rfl, rfl, by decide⟩

theorem C2_witness :
    reqLookup stReg.requests tokT = some 0 ∧ stReg.xhrs[0]? = some (mkXhr .null true) ∧
    (jfKeys bW).Nodup ∧
    ((onmessage envS stReg proxyOrigin
        (.arr (je [.obj bW, .num 204, .null, .str tokT]))).2 = none ∧
      ∃ x', (onmessage envS stReg proxyOrigin
          (.arr (je [.obj bW, .num 204, .null, .str tokT]))).1.xhrs[0]? = some x' ∧
        x'.events = [⟨kLoad, [(kData, .obj bW), (kBody, .obj bW), (kResponse, .obj bW)]⟩]) ∧
    (onmessage envS stReg proxyOrigin
        (.arr (je [.obj bW, .num 404, .null, .str tokT]))).2 = none := by
  have h204 := C2_status_classification envS stReg bW (.num 204) .null tokT 0
    (mkXhr .null true) bW rfl rfl rfl (by decide)
  have h404 := C2_status_classification envS stReg bW (.num 404) .null tokT 0
    (mkXhr .null true) bW rfl rfl rfl (by decide)
  have hs := h204.2.1 (Or.inr ⟨204, rfl, by norm_num, by norm_num⟩)
  have hf := h404.2.2 404 rfl (by norm_num)
  refine ⟨rfl, rfl, by decide, ⟨hs.1, ?_⟩, hf.1⟩
  obtain ⟨x', hx', hev⟩ := hs.2
  exact ⟨x', hx', by simpa [mkXhr] using hev⟩

/-- Claim C6 (amended): for a failure reply whose object body has a truthy
`error` field (a non-empty string), the failure object's name is the
title-casing of that field with underscores removed, suffixed with "Error",
and every other body field is copied onto the failure object. -/
theorem C6_error_name_derivation (env : Env) (st : St) (bprops : JFields) (n : Int)
    (tok : String) (ix : Nat) (x : Xhr) (s : String)
    (hreg : reqLookup st.requests tok = some ix)
    (hx : st.xhrs[ix]? = some x)
    (hnd : (jfKeys bprops).Nodup)
    (herr : jget bprops kError = .str s) (hs : s ≠ "")
    (hfail : ¬(200 ≤ n ∧ n ≤ 299)) :
    ∃ x' E, (onmessage env st proxyOrigin
        (.arr (je [.obj bprops, .num n, .null, .str tok]))).1.xhrs[ix]? = some x' ∧
      x'.events = x.events ++ [⟨kErrorEvt, [(kError, .obj E), (kErr, .obj E)]⟩] ∧
      jget E kNameKey = .str (toTitle (.str s) ++ kErrorSuffix) ∧
      (∀ k, jhas bprops k = true → k ≠ kNameKey → jget E k = jget bprops k) := by
  have hmsg := onmessage_arr_eq env st (je [.obj bprops, .num n, .null, .str tok])
    (je_ne_nil _ _)
  have hlast : jkey (jlast (je [.obj bprops, .num n, .null, .str tok])) = tok := rfl
  rw [hlast, hreg] at hmsg
  dsimp only at hmsg
  have hidx0 : getIdxI (.arr (je [.obj bprops, .num n, .null, .str tok])) 0 = .obj bprops := rfl
  have hidx1 : getIdxI (.arr (je [.obj bprops, .num n, .null, .str tok])) 1 = .num n := rfl
  have hidx2 : getIdxI (.arr (je [.obj bprops, .num n, .null, .str tok])) 2 = .null := rfl
  rw [hidx0, hidx1, hidx2, afterLookup_obj st tok ix bprops (.num n) .null bprops rfl] at hmsg
  have h2 : floorDiv100Eq2 (.num n) = false := by
    simp only [floorDiv100Eq2, decide_eq_false_iff_not]
    intro hh
    exact hfail ((fdiv100_eq2_iff n).mp hh)
  rw [if_neg (by simp [looseNull, h2]), reject_xhrRef] at hmsg
  have htr : truthy (jget bprops kError) = true := by
    rw [herr]
    simpa [truthy] using hs
  obtain ⟨g1, g2, g3, g4⟩ := errFields_props bprops (.num n)
    (if truthy (jget bprops kError) then
      jset (copyFields (.cons kStatusCode (.num n) .nil) bprops) kNameKey
        (.str (toTitle (jget bprops kError) ++ kErrorSuffix))
    else copyFields (.cons kStatusCode (.num n) .nil) bprops) hnd rfl
  exact ⟨_, _, by rw [hmsg]; simp only [updAt_getElem?, hx]; rfl,
    dispatchOn_events _ _, by rw [g4 htr, herr],
    fun k hk hkn => g1 k hk (fun hh => hkn hh.1)⟩

/-- Counterexample to claim C6 as stated: the body has an `error` field (the
empty string) and a `name` field "X"; the claim's derived name would be
`toTitle("") ++ "Error" = "Error"`, but the code's truthiness check skips the
derivation for a falsy `error`, so the copied name "X" stands. -/
theorem C6_counterexample :
    (onmessage envS stReg proxyOrigin dC6x).1.xhrs.map (fun x => x.events) =
      [[⟨kErrorEvt, [(kError, .obj eC6x), (kErr, .obj eC6x)]⟩]] ∧
    jhas bC6x kError = true ∧
    jget eC6x kNameKey = .str strX ∧
    JVal.str strX ≠ .str (toTitle (jget bC6x kError) ++ kErrorSuffix) :=
  ⟨rfl, rfl, rfl, by decide⟩

theorem C6_witness :
    reqLookup stReg.requests tokT = some 0 ∧ (jfKeys bC6).Nodup ∧
    jget bC6 kError = .str strInvalidInput ∧ strInvalidInput ≠ emptyStr ∧
    ∃ x' E, (onmessage envS stReg proxyOrigin
        (.arr (je [.obj bC6, .num 400, .null, .str tokT]))).1.xhrs[0]? = some x' ∧
      x'.events = [⟨kErrorEvt, [(kError, .obj E), (kErr, .obj E)]⟩] ∧
      jget E kNameKey = .str strInvalidInputError ∧
      jget E kMessage = .str strBad := by
  have h := C6_error_name_derivation envS stReg bC6 400 tokT 0 (mkXhr .null true)
    strInvalidInput rfl rfl (by decide) rfl (by decide) (by norm_num)
  obtain ⟨x', E, h1, h2, h3, h4⟩ := h
  refine ⟨rfl, by decide, rfl, by decide, x', E, h1, by simpa [mkXhr] using h2,
    h3.trans (by decide), h4 kMessage (by decide) (by decide)⟩

/-- Claim C5 (amended): on the direct path, a structured-clone channel posts
the parameter object with a truthy `success` marker stamped on it; a
string-only channel (`postStrings`) serialises the parameters BEFORE the
marker is stamped, and the stamp on the resulting string primitive is a
silent no-op, so the posted payload is the serialisation of the parameters
with no marker added. -/
theorem C5_success_marker (env : Env) (st : St) (p : JVal)
    (hdirect : (st.hasFileSerializationBug && hasFile p) = false)
    (hnothrow : env.postThrows (directPayload env p) = false) :
    (env.postStrings = false → ∀ fs, p = .obj fs →
      (submitRequest env st p).2 = none ∧
      (submitRequest env st p).1.posted =
        st.posted ++ [.obj (jset fs kSuccess (.bool true))] ∧
      truthy (jget (jset fs kSuccess (.bool true)) kSuccess) = true) ∧
    (env.postStrings = true →
      (submitRequest env st p).2 = none ∧
      (submitRequest env st p).1.posted = st.posted ++ [.str (jsonStringify p)]) := by
  constructor
  · intro hps fs hp
    subst hp
    have hdp : directPayload env (.obj fs) = .obj (jset fs kSuccess (.bool true)) := by
      simp [directPayload, hps, jsetProp]
    rw [hdp] at hnothrow
    refine ⟨?_, ?_, by rw [jget_jset_self]; rfl⟩ <;>
      · unfold submitRequest
        simp [hdirect, hdp, hnothrow]
  · intro hps
    have hdp : directPayload env p = .str (jsonStringify p) := by
      simp [directPayload, hps, jsetProp]
    rw [hdp] at hnothrow
    refine ⟨?_, ?_⟩ <;>
      · unfold submitRequest
        simp [hdirect, hdp, hnothrow]

/-- Counterexample to claim C5 as stated: on a string-only channel the
serialisation happens before the marker is stamped, so the payload handed to
the channel — the serialised parameter string — carries no success marker,
while the structured channel's payload for the same call does. -/
theorem C5_counterexample :
    (request envPS stReg (.str pathMe) false tokAbc).1.posted = [.str jsonNoMarker] ∧
    carriesSuccessMarker (.str jsonNoMarker) = false ∧
    (request envS stReg (.str pathMe) false tokAbc).1.posted.map carriesSuccessMarker =
      [true] :=
  ⟨by decide, by decide, by decide⟩

theorem C5_witness :
    (stReg.hasFileSerializationBug && hasFile pA) = false ∧
    envS.postThrows (directPayload envS pA) = false ∧
    envPS.postThrows (directPayload envPS pA) = false ∧
    (submitRequest envS stReg pA).1.posted.map carriesSuccessMarker = [true] ∧
    (submitRequest envPS stReg pA).1.posted = [.str (jsonStringify pA)] := by
  have h1 := (C5_success_marker envS stReg pA rfl rfl).1 rfl (jf [(kPath, .str pathA)]) rfl
  have h2 := (C5_success_marker envPS stReg pA rfl rfl).2 rfl
  refine ⟨rfl, rfl, rfl, ?_, ?_⟩
  · rw [h1.2.1]
    rfl
  · rw [h2.2]
    rfl

/-- Claim C4, the code evaluated at the failing input: with the defect flag
cached, a two-attachment call enters the fallback and the first read fails.
`fileToArrayBuffer` assigned its failure handler to the property `onError`
while the file API invokes `onerror`, which the source never assigns — so
the failure invokes no handler at all and the state is bit-for-bit
unchanged; the second read's success only brings the outstanding count to 1,
so no channel submission ever occurs; and no error event or callback ever
reaches the call's handle (nor could one: the dead handler calls
`reject( err )` with a single argument and no xhr in scope), which stays
registered and pending forever. -/
theorem C4_read_failure_evaluation :
    c4Step1.2 = none ∧ c4Step2 = (c4Step1.1, none) ∧ c4Step3.2 = none ∧
    c4Step3.1.posted = [] ∧
    c4Step3.1.pabs.map (fun s => (s.count, s.called)) = [(1, false)] ∧
    reqLookup c4Step3.1.requests tokT = some 0 ∧
    c4Step3.1.xhrs.map (fun x => (x.events, x.cbCalls)) = [([], [])] :=
  ⟨rfl, rfl, rfl, rfl, rfl, rfl, rfl⟩

